import Mathlib

/-
  Verification development for the lux-mcp repository.

  The repository ships integration test scripts and a transparent
  stdio-forwarding wrapper (src/mcp-stdio-wrapper.py). The wrapper is
  embedded below directly from its source. The Reasoning Orchestration
  Engine itself (session manager, synthesis engine, metacognitive
  monitor, bias adjudication loop, planner state machine) exists in the
  repository only as a compiled binary exercised by the tests, so it is
  modelled here from the specification, with each modelled definition
  marked as such in its doc comment.
-/

namespace LuxMcp

/-! ## Part 1: the stdio wrapper, embedded from src/mcp-stdio-wrapper.py -/

/-- Result of running the forwarding loop of src/mcp-stdio-wrapper.py
(lines 33 to 47) on a finite list of input lines: the lines written to
the child process stdin, the lines written to the wrapper stdout, and
whether the loop ended blocked on a read of the child stdout that can
never return a line. -/
structure WrapperTrace where
  sentToChild : List String
  writtenOut : List String
  blocked : Bool
deriving DecidableEq, Repr

/-- The forwarding loop of src/mcp-stdio-wrapper.py, lines 33 to 47.
The child process is modelled by the list of stdout lines it emits in
response to each stdin line; those lines accumulate in the pipe buffer.
Per iteration the wrapper reads one input line (EOF ends the loop),
writes it unchanged to the child, then performs one blocking readline
on the child stdout: if the buffer holds a line it is forwarded to the
wrapper stdout, otherwise the loop blocks forever, which the model
records as a trace ending with blocked set. -/
def wrapperLoop (child : String → List String) : List String → List String → WrapperTrace
  | [], _ => ⟨[], [], false⟩
  | l :: rest, buf =>
    match buf ++ child l with
    | [] => ⟨[l], [], true⟩
    | r :: buf2 =>
      let t := wrapperLoop child rest buf2
      ⟨l :: t.sentToChild, r :: t.writtenOut, t.blocked⟩

/-- Run the wrapper on a list of stdin lines, child pipe initially empty. -/
def wrapperRun (child : String → List String) (input : List String) : WrapperTrace :=
  wrapperLoop child input []

/-! ## Part 2: the Reasoning Orchestration Engine, modelled from the spec
The engine is shipped only as a compiled binary (target/release/lux-mcp);
every definition in this part is modelled from the specification text. -/

/-- Clamp a rational to the closed interval from 0 to 1. -/
def clamp01 (x : ℚ) : ℚ := max 0 (min 1 x)

/-- Modelled from the spec: configured model roles of a session
(primary, verifier, reasoning); immutable once the session exists. -/
structure ModelConfig where
  primary : String
  verifier : String
  reasoning : String
deriving DecidableEq, Repr

/-- Modelled from the spec: a durable, attributable fact extracted
during synthesis: text, confidence in the unit interval, the
originating step number. -/
structure Insight where
  text : String
  confidence : ℚ
  sourceStep : Nat
deriving DecidableEq, Repr

/-- Modelled from the spec: one SynthesisState per session per version.
Version starts at 1 and is strictly increasing with no gaps; the scores
lie in the unit interval; key decisions and next actions are ordered
lists; degraded states carry a diagnostic note. -/
structure SynthesisState where
  version : Nat
  stepNumber : Nat
  currentUnderstanding : String
  confidenceScore : ℚ
  clarityScore : ℚ
  keyDecisions : List String
  nextActions : List String
  insights : List Insight
  degraded : Bool
  diagnosticNote : Option String
deriving DecidableEq, Repr

/-- Modelled from the spec: the empty seed a session starts from before
version 1 exists (the prior of version 1). -/
def seedState : SynthesisState :=
  { version := 0
    stepNumber := 0
    currentUnderstanding := ""
    confidenceScore := mkRat 1 2
    clarityScore := mkRat 1 2
    keyDecisions := []
    nextActions := []
    insights := []
    degraded := false
    diagnosticNote := none }

/-- Modelled from the spec: the fixed vocabulary of intervention types. -/
inductive InterventionType where
  | circular_reasoning
  | bias_detected
  | low_confidence_plateau
deriving DecidableEq, Repr

/-- Modelled from the spec: an advisory annotation produced by the
Metacognitive Monitor, tagged with the offending step number. -/
structure Intervention where
  stepNumber : Nat
  itype : InterventionType
  description : String
deriving DecidableEq, Repr

/-- The key under which duplicate interventions are suppressed:
at most one intervention of a given type may exist per step. -/
def ivKey (i : Intervention) : Nat × InterventionType :=
  (i.stepNumber, i.itype)

/-- Modelled from the spec: one ReasoningStep per submitted unit of
reasoning, with a per-session step number starting at 1, the textual
content, the producing model role, a similarity-to-recent-history
metric, and a declared final flag. -/
structure ReasoningStep where
  stepNumber : Nat
  content : String
  modelRole : String
  similarityToHistory : ℚ
  final : Bool
deriving DecidableEq, Repr

/-- Modelled from the spec: session lifecycle status. -/
inductive SessionStatus where
  | active
  | completed
  | aborted
deriving DecidableEq, Repr

/-- Modelled from the spec: a Session owns its step counter, its full
version chain of SynthesisStates (kept newest first; superseded
versions are retained, never deleted), its submitted steps (newest
first) and the interventions raised so far. -/
structure Session where
  externalId : String
  modelConfig : ModelConfig
  stepCounter : Nat
  status : SessionStatus
  states : List SynthesisState
  steps : List ReasoningStep
  interventions : List Intervention
deriving DecidableEq, Repr

/-- Modelled from the spec: the error taxonomy of section 7. -/
inductive EngineError where
  | SessionNotFound
  | SessionClosed
  | StepOutOfOrder
  | ConfigurationMismatch
  | ModelProviderTransientError
  | ModelProviderPermanentError
deriving DecidableEq, Repr

/-- Modelled from the spec: a fresh session created on first step
submission: counter 0, active, no states yet. -/
def newSession (extId : String) (mc : ModelConfig) : Session :=
  { externalId := extId
    modelConfig := mc
    stepCounter := 0
    status := SessionStatus.active
    states := []
    steps := []
    interventions := [] }

/-- The latest SynthesisState of a session, the seed when none exists. -/
def latestState (s : Session) : SynthesisState :=
  s.states.head?.getD seedState

/-! ### Metacognitive Monitor -/

/-- Modelled from the spec: per-session guardrail configuration of the
Metacognitive Monitor: circularity threshold and history window size
are configuration, not hard-coded constants, and a disabled check is
skipped entirely. -/
structure MonitorConfig where
  circularityThreshold : ℚ
  historyWindow : Nat
  circularCheckEnabled : Bool
deriving Repr

/-- The window of recent prior steps inspected by the Monitor
(steps are kept newest first). -/
def recentWindow (cfg : MonitorConfig) (priorSteps : List ReasoningStep) : List ReasoningStep :=
  priorSteps.take cfg.historyWindow

/-- Similarity of new content to the recent history, the maximum over
the window (0 when the window is empty). -/
def maxSimilarity (scorer : String → String → ℚ) (content : String)
    (window : List ReasoningStep) : ℚ :=
  (window.map (fun p => scorer content p.content)).foldl max 0

/-- Modelled from the spec: the circularity check fires when the check
is enabled and similarity between the new content and some step of the
recent window exceeds the configured circularity threshold. -/
def circularTrigger (cfg : MonitorConfig) (scorer : String → String → ℚ)
    (content : String) (priorSteps : List ReasoningStep) : Bool :=
  cfg.circularCheckEnabled &&
    (recentWindow cfg priorSteps).any
      (fun p => decide (cfg.circularityThreshold < scorer content p.content))

/-- Modelled from the spec: evaluate(session, newStep, priorSteps)
returns the advisory interventions for the new step; a circular
reasoning intervention tagged with the offending step when the
circularity check fires, nothing otherwise. -/
def evaluate (cfg : MonitorConfig) (scorer : String → String → ℚ)
    (newStep : ReasoningStep) (priorSteps : List ReasoningStep) : List Intervention :=
  if circularTrigger cfg scorer newStep.content priorSteps then
    [⟨newStep.stepNumber, InterventionType.circular_reasoning,
      "circular reasoning detected against recent history"⟩]
  else []

/-- Whether an intervention of the given type already exists for the
given step. -/
def hasIntervention (l : List Intervention) (n : Nat) (t : InterventionType) : Bool :=
  l.any (fun j => j.stepNumber == n && j.itype == t)

/-- Modelled from the spec: recording an intervention suppresses
duplicates: a second trigger of the same type for the same step is not
re-recorded. -/
def recordIntervention (l : List Intervention) (i : Intervention) : List Intervention :=
  if hasIntervention l i.stepNumber i.itype then l else l ++ [i]

/-- Record a batch of interventions in order, suppressing duplicates. -/
def recordAll (l : List Intervention) (new : List Intervention) : List Intervention :=
  new.foldl recordIntervention l

/-! ### Synthesis Engine -/

/-- Modelled from the spec: the well-formed outcome of one synthesis
derivation attempt: updated understanding text, freshly extracted
insights, and contributed key decisions and next actions. -/
structure Derived where
  understanding : String
  newInsights : List Insight
  newKeyDecisions : List String
  newNextActions : List String
deriving DecidableEq, Repr

/-- A derivation procedure: attempt index to result; none models an
ill-structured output of the underlying text-generation step. -/
abbrev Deriver := Nat → Option Derived

/-- Modelled from the spec: the small fixed retry bound of the
synthesis derivation. -/
def synthesisRetryBound : Nat := 3

/-- Try attempts 0, 1, ... below the bound and return the earliest
well-formed result, none when all attempts fail. -/
def firstSuccess (f : Deriver) : Nat → Option Derived
  | 0 => none
  | n + 1 =>
    match firstSuccess f n with
    | some d => some d
    | none => f n

/-- Tunable policy constant: upward confidence trend per corroborating
insight. -/
def insightBoost : ℚ := mkRat 1 20

/-- Tunable policy constant: downward confidence trend per detected
intervention. -/
def interventionPenalty : ℚ := mkRat 1 10

/-- Tunable policy constant: upward clarity trend per contributed key
decision. -/
def clarityGain : ℚ := mkRat 1 20

/-- Tunable policy constant: the explicit confidence reduction of a
degraded SynthesisState. -/
def degradePenalty : ℚ := mkRat 1 5

/-- Modelled from the spec: advance produces the next SynthesisState
from the prior one. On a well-formed derivation it merges the new
content: confidence trends upward with corroborating insights and
downward with detected interventions, clarity with contributed key
decisions, both clamped to the unit interval; the key-decision and
next-action lists are appended to, never replaced. When every retry of
the derivation fails it emits a degraded SynthesisState: unchanged
understanding, confidence explicitly lowered, an attached diagnostic
note. A step always yields a SynthesisState. -/
def advance (prior : SynthesisState) (deriver : Deriver) (stepNumber : Nat)
    (interventionCount : Nat) : SynthesisState :=
  match firstSuccess deriver synthesisRetryBound with
  | some d =>
    { version := prior.version + 1
      stepNumber := stepNumber
      currentUnderstanding := d.understanding
      confidenceScore :=
        clamp01 (prior.confidenceScore + insightBoost * d.newInsights.length
          - interventionPenalty * interventionCount)
      clarityScore := clamp01 (prior.clarityScore + clarityGain * d.newKeyDecisions.length)
      keyDecisions := prior.keyDecisions ++ d.newKeyDecisions
      nextActions := prior.nextActions ++ d.newNextActions
      insights := d.newInsights
      degraded := false
      diagnosticNote := none }
  | none =>
    { version := prior.version + 1
      stepNumber := stepNumber
      currentUnderstanding := prior.currentUnderstanding
      confidenceScore := clamp01 (prior.confidenceScore - degradePenalty)
      clarityScore := prior.clarityScore
      keyDecisions := prior.keyDecisions
      nextActions := prior.nextActions
      insights := []
      degraded := true
      diagnosticNote := some "synthesis derivation failed after retries; degraded result" }

/-! ### The single internal advanceStep operation and its entry points -/

/-- The tagged payload of one submitted unit of reasoning. -/
structure StepPayload where
  content : String
  modelRole : String
  final : Bool
deriving Repr

/-- Modelled from the spec: the single internal operation every public
entry point funnels into. It assigns the next step number, lets the
Monitor evaluate the new step against the prior steps, derives the next
SynthesisState through advance, and commits the new step, state and
interventions to the session as one unit; a step declared final
completes the session. -/
def advanceStep (cfg : MonitorConfig) (scorer : String → String → ℚ) (deriver : Deriver)
    (s : Session) (p : StepPayload) : Session × SynthesisState :=
  let n := s.stepCounter + 1
  let newStep : ReasoningStep :=
    { stepNumber := n
      content := p.content
      modelRole := p.modelRole
      similarityToHistory := maxSimilarity scorer p.content (recentWindow cfg s.steps)
      final := p.final }
  let ivs := evaluate cfg scorer newStep s.steps
  let st := advance (latestState s) deriver n ivs.length
  let s2 : Session :=
    { s with
      stepCounter := n
      steps := newStep :: s.steps
      states := st :: s.states
      interventions := recordAll s.interventions ivs
      status := if p.final then SessionStatus.completed else s.status }
  (s2, st)

/-- Modelled from the spec: submitStep(session, payload) requires an
active session, failing with SessionClosed otherwise; an accepted step
always yields the new SynthesisState. -/
def submitStep (cfg : MonitorConfig) (scorer : String → String → ℚ) (deriver : Deriver)
    (s : Session) (p : StepPayload) : Except EngineError (Session × SynthesisState) :=
  if s.status = SessionStatus.active then
    Except.ok (advanceStep cfg scorer deriver s p)
  else
    Except.error EngineError.SessionClosed

/-- Modelled from the spec: the submit-thought entry point, a free-form
step with optional continuation. -/
def submitThought (cfg : MonitorConfig) (scorer : String → String → ℚ) (deriver : Deriver)
    (s : Session) (content : String) (fin : Bool) :
    Except EngineError (Session × SynthesisState) :=
  submitStep cfg scorer deriver s ⟨content, "primary", fin⟩

/-- The declarative payload of the Planner State Machine. -/
structure PlannerPayload where
  description : String
  stepNumber : Nat
  totalSteps : Nat
  nextStepRequired : Bool
deriving Repr

/-- Modelled from the spec: the Planner State Machine. It enforces that
stepNumber equals the session step counter plus 1 (else StepOutOfOrder)
and that totalSteps is at least stepNumber while nextStepRequired holds
(else a configuration error); the validated step is fed through the
Synthesis Engine and Monitor unchanged, and nextStepRequired false
closes the session after the final synthesis. -/
def plannerStep (cfg : MonitorConfig) (scorer : String → String → ℚ) (deriver : Deriver)
    (s : Session) (p : PlannerPayload) : Except EngineError (Session × SynthesisState) :=
  if s.status = SessionStatus.active then
    if p.stepNumber = s.stepCounter + 1 then
      if p.nextStepRequired = true ∧ p.totalSteps < p.stepNumber then
        Except.error EngineError.ConfigurationMismatch
      else
        Except.ok (advanceStep cfg scorer deriver s ⟨p.description, "planner", !p.nextStepRequired⟩)
    else
      Except.error EngineError.StepOutOfOrder
  else
    Except.error EngineError.SessionClosed

/-- Modelled from the spec: close(session, reason) transitions an
active session to completed and is idempotent on a session already
closed. -/
def close (s : Session) (_reason : String) : Session :=
  { s with status := if s.status = SessionStatus.active then SessionStatus.completed else s.status }

/-! ### Session Manager persistence -/

/-- Modelled from the spec: the Persistence Store, append-only storage
keyed by the opaque external session identifier; the newest committed
record for a key is authoritative. -/
abbrev Store := List (String × Session)

/-- Look a session up by external id: the newest committed record. -/
def lookupSession (store : Store) (extId : String) : Option Session :=
  (store.find? (fun kv => kv.1 == extId)).map (fun kv => kv.2)

/-- Commit a session to the store (append-only: the new record
supersedes, never overwrites, older ones). -/
def persist (store : Store) (s : Session) : Store :=
  (s.externalId, s) :: store

/-- Modelled from the spec: openOrResume(externalId, modelConfig). With
an id that is found it returns the existing session, rejecting a
conflicting model reconfiguration with a configuration-mismatch error;
with an unknown or omitted id it creates a fresh session. -/
def openOrResume (store : Store) (extId : Option String) (freshId : String)
    (mc : ModelConfig) : Except EngineError (Store × Session) :=
  match extId with
  | some i =>
    match lookupSession store i with
    | some s =>
      if s.modelConfig = mc then Except.ok (store, s)
      else Except.error EngineError.ConfigurationMismatch
    | none =>
      let s := newSession i mc
      Except.ok (persist store s, s)
  | none =>
    let s := newSession freshId mc
    Except.ok (persist store s, s)

/-! ### Bias Adjudication Loop -/

/-- Modelled from the spec: one iteration of the Adjudication Loop:
round index, proposed content, critique text, bias verdict, and the
verifier confidence in that verdict. -/
structure BiasRound where
  roundIndex : Nat
  proposedContent : String
  critique : String
  biasDetected : Bool
  verdictConfidence : ℚ
deriving DecidableEq, Repr

/-- How the loop finalized: converged, or round cap reached without
convergence (annotated, not an error). -/
inductive LoopOutcome where
  | converged
  | nonConvergent
deriving DecidableEq, Repr

/-- Modelled from the spec: the final synthesis returned by runRounds:
the last available synthesis, the rounds run, the outcome annotation
and the closed session. -/
structure FinalSynthesis where
  finalState : SynthesisState
  rounds : List BiasRound
  outcome : LoopOutcome
  finalSession : Session
deriving Repr

/-- The primary and verifier roles as opaque collaborators: per round,
a proposal, a critique, and a bias verdict with confidence. -/
structure Adjudicator where
  propose : Nat → String → String
  critiqueOf : Nat → String → String
  verdict : Nat → String → Bool × ℚ

/-- A round converges when the verifier reports no bias with
confidence above the convergence threshold. -/
def roundConverges (threshold : ℚ) (r : BiasRound) : Bool :=
  !r.biasDetected && decide (threshold < r.verdictConfidence)

/-- The loop body: fuel counts the remaining rounds of the budget. Each
round folds the proposed content through the Synthesis Engine as a
normal step and stops early on convergence. -/
def runRoundsAux (cfg : MonitorConfig) (scorer : String → String → ℚ) (deriver : Deriver)
    (adj : Adjudicator) (threshold : ℚ) (query : String) :
    Nat → Nat → Session → Session × List BiasRound × LoopOutcome
  | 0, _, s => (s, [], LoopOutcome.nonConvergent)
  | fuel + 1, idx, s =>
    let content := adj.propose idx query
    let crit := adj.critiqueOf idx content
    let v := adj.verdict idx content
    let r : BiasRound := ⟨idx, content, crit, v.1, v.2⟩
    let s1 := (advanceStep cfg scorer deriver s ⟨content, "primary", false⟩).1
    if roundConverges threshold r then
      (s1, [r], LoopOutcome.converged)
    else
      let rest := runRoundsAux cfg scorer deriver adj threshold query fuel (idx + 1) s1
      (rest.1, r :: rest.2.1, rest.2.2)

/-- Modelled from the spec: runRounds(session, query, maxRounds)
terminates when the verifier reports no bias with confidence above the
convergence threshold, or when maxRounds is reached, whichever first;
reaching the cap is not an error, the loop finalizes with the last
available synthesis annotated non-convergent. Finalizing closes the
session. -/
def runRounds (cfg : MonitorConfig) (scorer : String → String → ℚ) (deriver : Deriver)
    (adj : Adjudicator) (threshold : ℚ) (s : Session) (query : String)
    (maxRounds : Nat) : FinalSynthesis :=
  let out := runRoundsAux cfg scorer deriver adj threshold query maxRounds 1 s
  let s2 := close out.1 "final_synthesis"
  ⟨latestState s2, out.2.1, out.2.2, s2⟩

/-! ### Reachable sessions and the session invariants -/

/-- The descending list n, n-1, ..., 1: the version chain of a session
with n versions, newest first. -/
def descFrom : Nat → List Nat
  | 0 => []
  | n + 1 => (n + 1) :: descFrom n

/-- Both scores of a SynthesisState lie in the unit interval. -/
def scoreBounded (st : SynthesisState) : Prop :=
  0 ≤ st.confidenceScore ∧ st.confidenceScore ≤ 1 ∧
    0 ≤ st.clarityScore ∧ st.clarityScore ≤ 1

instance (st : SynthesisState) : Decidable (scoreBounded st) := by
  unfold scoreBounded; infer_instance

/-- Between adjacent versions, newest first: a degraded state has
confidence at most the confidence of the immediately prior version. -/
def degradedMono (newer older : SynthesisState) : Prop :=
  newer.degraded = true → newer.confidenceScore ≤ older.confidenceScore

instance (a b : SynthesisState) : Decidable (degradedMono a b) := by
  unfold degradedMono; infer_instance

/-- The combined session invariant: the step counter matches the
number of versions, the version and step-number chains are exactly
N..1 newest first, every stored state has bounded scores, degraded
states never raise confidence over their predecessor, and intervention
keys are pairwise distinct. -/
def Inv (s : Session) : Prop :=
  s.stepCounter = s.states.length ∧
  s.steps.length = s.states.length ∧
  s.states.map SynthesisState.version = descFrom s.states.length ∧
  s.steps.map ReasoningStep.stepNumber = descFrom s.steps.length ∧
  (∀ st ∈ s.states, scoreBounded st) ∧
  List.Chain' degradedMono s.states ∧
  List.Pairwise (fun a b => ivKey a ≠ ivKey b) s.interventions

/-- The sessions reachable through the public operations of the
engine, from a fresh session, under arbitrary per-call collaborators
(scorer, deriver, adjudicator). -/
inductive Reachable (cfg : MonitorConfig) : Session → Prop where
  | init (extId : String) (mc : ModelConfig) : Reachable cfg (newSession extId mc)
  | planner (scorer : String → String → ℚ) (deriver : Deriver) (s : Session)
      (p : PlannerPayload) (s2 : Session) (st : SynthesisState) :
      Reachable cfg s → plannerStep cfg scorer deriver s p = Except.ok (s2, st) →
      Reachable cfg s2
  | thought (scorer : String → String → ℚ) (deriver : Deriver) (s : Session)
      (content : String) (fin : Bool) (s2 : Session) (st : SynthesisState) :
      Reachable cfg s → submitThought cfg scorer deriver s content fin = Except.ok (s2, st) →
      Reachable cfg s2
  | closer (s : Session) (reason : String) :
      Reachable cfg s → Reachable cfg (close s reason)
  | biasRun (scorer : String → String → ℚ) (deriver : Deriver) (adj : Adjudicator)
      (threshold : ℚ) (query : String) (maxRounds : Nat) (s : Session) :
      Reachable cfg s →
      Reachable cfg (runRounds cfg scorer deriver adj threshold s query maxRounds).finalSession

/-! ### Helper lemmas -/

theorem clamp01_nonneg (x : ℚ) : 0 ≤ clamp01 x := le_max_left 0 _

theorem clamp01_le_one (x : ℚ) : clamp01 x ≤ 1 :=
  max_le (by norm_num) (min_le_left 1 x)

theorem clamp01_le_of_le (x a : ℚ) (ha : 0 ≤ a) (hx : x ≤ a) : clamp01 x ≤ a :=
  max_le ha (le_trans (min_le_right 1 x) hx)

theorem advance_version (prior : SynthesisState) (d : Deriver) (n c : Nat) :
    (advance prior d n c).version = prior.version + 1 := by
  unfold advance
  cases firstSuccess d synthesisRetryBound <;> rfl

theorem advance_stepNumber (prior : SynthesisState) (d : Deriver) (n c : Nat) :
    (advance prior d n c).stepNumber = n := by
  unfold advance
  cases firstSuccess d synthesisRetryBound <;> rfl

theorem advance_bounded (prior : SynthesisState) (d : Deriver) (n c : Nat)
    (h : scoreBounded prior) : scoreBounded (advance prior d n c) := by
  unfold advance
  cases firstSuccess d synthesisRetryBound with
  | none =>
    exact ⟨clamp01_nonneg _, clamp01_le_one _, h.2.2.1, h.2.2.2⟩
  | some dd =>
    exact ⟨clamp01_nonneg _, clamp01_le_one _, clamp01_nonneg _, clamp01_le_one _⟩

theorem advance_degradedMono (prior : SynthesisState) (d : Deriver) (n c : Nat)
    (h : 0 ≤ prior.confidenceScore) : degradedMono (advance prior d n c) prior := by
  unfold advance
  cases firstSuccess d synthesisRetryBound with
  | none =>
    intro _
    exact clamp01_le_of_le _ _ h (by
      have : (0 : ℚ) ≤ degradePenalty := by decide
      linarith)
  | some dd =>
    intro hdeg
    exact absurd hdeg (by simp)

theorem advance_on_failure (prior : SynthesisState) (d : Deriver) (n c : Nat)
    (hfail : firstSuccess d synthesisRetryBound = none) :
    (advance prior d n c).degraded = true ∧
    (advance prior d n c).currentUnderstanding = prior.currentUnderstanding ∧
    (advance prior d n c).diagnosticNote.isSome = true ∧
    (advance prior d n c).confidenceScore = clamp01 (prior.confidenceScore - degradePenalty) := by
  unfold advance
  rw [hfail]
  exact ⟨rfl, rfl, rfl, rfl⟩

theorem firstSuccess_isSome (d : Deriver) :
    ∀ b k, k < b → (d k).isSome = true → (firstSuccess d b).isSome = true := by
  intro b
  induction b with
  | zero => intro k hk; omega
  | succ m ih =>
    intro k hk hsome
    unfold firstSuccess
    cases hfs : firstSuccess d m with
    | some dd => simp
    | none =>
      rcases Nat.lt_succ_iff_lt_or_eq.mp hk with hlt | heq
      · have := ih k hlt hsome
        rw [hfs] at this
        simp at this
      · subst heq
        simpa using hsome

theorem hasIntervention_false_iff (l : List Intervention) (n : Nat) (t : InterventionType) :
    hasIntervention l n t = false ↔ ∀ j ∈ l, ivKey j ≠ (n, t) := by
  simp only [hasIntervention, List.any_eq_false, Bool.and_eq_true, beq_iff_eq, ivKey,
    Prod.mk.injEq, not_and, ne_eq]

theorem recordIntervention_pairwise (l : List Intervention) (i : Intervention)
    (h : List.Pairwise (fun a b => ivKey a ≠ ivKey b) l) :
    List.Pairwise (fun a b => ivKey a ≠ ivKey b) (recordIntervention l i) := by
  unfold recordIntervention
  split
  · exact h
  · next hno =>
    rw [List.pairwise_append]
    refine ⟨h, List.pairwise_singleton _ _, ?_⟩
    intro a ha b hb
    rw [List.mem_singleton] at hb
    rw [hb]
    have := (hasIntervention_false_iff l i.stepNumber i.itype).mp (Bool.eq_false_iff.mpr hno)
    simpa [ivKey] using this a ha

theorem recordAll_pairwise (new l : List Intervention)
    (h : List.Pairwise (fun a b => ivKey a ≠ ivKey b) l) :
    List.Pairwise (fun a b => ivKey a ≠ ivKey b) (recordAll l new) := by
  induction new generalizing l with
  | nil => exact h
  | cons i rest ih => exact ih (recordIntervention l i) (recordIntervention_pairwise l i h)

theorem recordIntervention_idem (l : List Intervention) (i : Intervention) :
    recordIntervention (recordIntervention l i) i = recordIntervention l i := by
  unfold recordIntervention
  cases hcase : hasIntervention l i.stepNumber i.itype with
  | true => simp [hcase]
  | false =>
    simp only [hcase, Bool.false_eq_true, if_false]
    have : hasIntervention (l ++ [i]) i.stepNumber i.itype = true := by
      simp [hasIntervention]
    simp [this]

theorem latestState_version (s : Session)
    (h : s.states.map SynthesisState.version = descFrom s.states.length) :
    (latestState s).version = s.states.length := by
  cases hs : s.states with
  | nil => simp [latestState, hs, seedState]
  | cons a t =>
    rw [hs] at h
    simp only [List.map_cons, List.length_cons, descFrom, List.cons.injEq] at h
    simp [latestState, hs, h.1]

theorem latestState_bounded (s : Session) (h : ∀ st ∈ s.states, scoreBounded st) :
    scoreBounded (latestState s) := by
  cases hs : s.states with
  | nil =>
    simp only [latestState, hs, List.head?_nil, Option.getD_none]
    refine ⟨?_, ?_, ?_, ?_⟩ <;> norm_num [seedState]
  | cons a t =>
    simp only [latestState, hs, List.head?_cons, Option.getD_some]
    exact h a (by rw [hs]; exact List.mem_cons_self a t)

theorem latestState_nonneg_conf (s : Session) (h : ∀ st ∈ s.states, scoreBounded st) :
    0 ≤ (latestState s).confidenceScore :=
  (latestState_bounded s h).1

theorem advanceStep_inv (cfg : MonitorConfig) (scorer : String → String → ℚ)
    (deriver : Deriver) (s : Session) (p : StepPayload) (h : Inv s) :
    Inv (advanceStep cfg scorer deriver s p).1 := by
  obtain ⟨h1, h2, h3, h4, h5, h6, h7⟩ := h
  refine ⟨?_, ?_, ?_, ?_, ?_, ?_, ?_⟩
  · simp [advanceStep, h1]
  · simp [advanceStep, h2]
  · simp only [advanceStep, List.map_cons, List.length_cons, descFrom]
    rw [advance_version, latestState_version s h3, h3]
  · simp only [advanceStep, List.map_cons, List.length_cons, descFrom]
    rw [h4, h1, h2]
  · intro st hst
    simp only [advanceStep, List.mem_cons] at hst
    rcases hst with heq | hmem
    · rw [heq]
      exact advance_bounded _ _ _ _ (latestState_bounded s h5)
    · exact h5 st hmem
  · simp only [advanceStep]
    rw [List.chain'_cons']
    refine ⟨?_, h6⟩
    intro y hy
    cases hs : s.states with
    | nil => rw [hs] at hy; simp at hy
    | cons a t =>
      rw [hs] at hy
      simp only [List.head?_cons, Option.mem_def, Option.some.injEq] at hy
      have hlat : latestState s = a := by simp [latestState, hs]
      rw [← hy, ← hlat]
      exact advance_degradedMono _ _ _ _ (latestState_nonneg_conf s h5)
  · exact recordAll_pairwise _ _ h7

theorem advanceStep_status (cfg : MonitorConfig) (scorer : String → String → ℚ)
    (deriver : Deriver) (s : Session) (p : StepPayload) (hp : p.final = false) :
    (advanceStep cfg scorer deriver s p).1.status = s.status := by
  simp [advanceStep, hp]

theorem close_inv (s : Session) (reason : String) (h : Inv s) : Inv (close s reason) := h

theorem newSession_inv (extId : String) (mc : ModelConfig) : Inv (newSession extId mc) :=
  ⟨rfl, rfl, rfl, rfl, fun _ h => absurd h (List.not_mem_nil _),
    List.chain'_nil, List.Pairwise.nil⟩

theorem submitStep_ok_inversion (cfg : MonitorConfig) (scorer : String → String → ℚ)
    (deriver : Deriver) (s : Session) (p : StepPayload) (s2 : Session)
    (st : SynthesisState)
    (h : submitStep cfg scorer deriver s p = Except.ok (s2, st)) :
    s.status = SessionStatus.active ∧ (s2, st) = advanceStep cfg scorer deriver s p := by
  unfold submitStep at h
  split at h
  · next hact =>
    refine ⟨hact, ?_⟩
    injection h with h
    exact h.symm
  · exact absurd h (by simp)

theorem plannerStep_ok_inversion (cfg : MonitorConfig) (scorer : String → String → ℚ)
    (deriver : Deriver) (s : Session) (p : PlannerPayload) (s2 : Session)
    (st : SynthesisState)
    (h : plannerStep cfg scorer deriver s p = Except.ok (s2, st)) :
    s.status = SessionStatus.active ∧ p.stepNumber = s.stepCounter + 1 ∧
    ¬(p.nextStepRequired = true ∧ p.totalSteps < p.stepNumber) ∧
    (s2, st) = advanceStep cfg scorer deriver s ⟨p.description, "planner", !p.nextStepRequired⟩ := by
  unfold plannerStep at h
  split at h
  · next hact =>
    split at h
    · next hord =>
      split at h
      · exact absurd h (by simp)
      · next hconf =>
        refine ⟨hact, hord, hconf, ?_⟩
        injection h with h
        exact h.symm
    · exact absurd h (by simp)
  · exact absurd h (by simp)

theorem runRoundsAux_inv (cfg : MonitorConfig) (scorer : String → String → ℚ)
    (deriver : Deriver) (adj : Adjudicator) (threshold : ℚ) (query : String) :
    ∀ fuel idx s, Inv s →
      Inv (runRoundsAux cfg scorer deriver adj threshold query fuel idx s).1 := by
  intro fuel
  induction fuel with
  | zero => intro idx s h; exact h
  | succ m ih =>
    intro idx s h
    simp only [runRoundsAux]
    split
    · exact advanceStep_inv _ _ _ _ _ h
    · exact ih (idx + 1) _ (advanceStep_inv _ _ _ _ _ h)

theorem runRounds_inv (cfg : MonitorConfig) (scorer : String → String → ℚ)
    (deriver : Deriver) (adj : Adjudicator) (threshold : ℚ) (s : Session)
    (query : String) (maxRounds : Nat) (h : Inv s) :
    Inv (runRounds cfg scorer deriver adj threshold s query maxRounds).finalSession := by
  show Inv (close (runRoundsAux cfg scorer deriver adj threshold query maxRounds 1 s).1
    "final_synthesis")
  exact close_inv _ _ (runRoundsAux_inv cfg scorer deriver adj threshold query maxRounds 1 s h)

theorem reachable_inv (cfg : MonitorConfig) (s : Session) (h : Reachable cfg s) : Inv s := by
  induction h with
  | init extId mc => exact newSession_inv extId mc
  | planner scorer deriver s p s2 st _ heq ih =>
    have hinv := (plannerStep_ok_inversion cfg scorer deriver s p s2 st heq).2.2.2
    have : s2 = (advanceStep cfg scorer deriver s ⟨p.description, "planner", !p.nextStepRequired⟩).1 := by
      rw [← hinv]
    rw [this]
    exact advanceStep_inv _ _ _ _ _ ih
  | thought scorer deriver s content fin s2 st _ heq ih =>
    have hinv := (submitStep_ok_inversion cfg scorer deriver s ⟨content, "primary", fin⟩ s2 st heq).2
    have : s2 = (advanceStep cfg scorer deriver s ⟨content, "primary", fin⟩).1 := by
      rw [← hinv]
    rw [this]
    exact advanceStep_inv _ _ _ _ _ ih
  | closer s reason _ ih => exact close_inv s reason ih
  | biasRun scorer deriver adj threshold query maxRounds s _ ih =>
    exact runRounds_inv cfg scorer deriver adj threshold s query maxRounds ih

theorem descFrom_reverse (n : Nat) : (descFrom n).reverse = List.range' 1 n := by
  induction n with
  | zero => rfl
  | succ m ih =>
    show ((m + 1) :: descFrom m).reverse = List.range' 1 (m + 1)
    rw [List.reverse_cons, ih, List.range'_concat]
    simp [Nat.add_comm]

theorem descFrom_nodup (n : Nat) : (descFrom n).Nodup := by
  rw [← List.nodup_reverse, descFrom_reverse]
  exact List.nodup_range' 1 n

theorem advanceStep_latest (cfg : MonitorConfig) (scorer : String → String → ℚ)
    (deriver : Deriver) (s : Session) (p : StepPayload) :
    latestState (advanceStep cfg scorer deriver s p).1 = (advanceStep cfg scorer deriver s p).2 :=
  rfl

theorem lookup_persist (store : Store) (s : Session) :
    lookupSession (persist store s) s.externalId = some s := by
  simp [lookupSession, persist, List.find?_cons_of_pos]

theorem openOrResume_persist (store : Store) (s : Session) (freshId : String) :
    openOrResume (persist store s) (some s.externalId) freshId s.modelConfig =
      Except.ok (persist store s, s) := by
  simp [openOrResume, lookup_persist]

/-! ### The forwarding-loop invariant of the stdio wrapper -/

theorem wrapperLoop_spec (child : String → List String) :
    ∀ (input buf : List String),
      (∃ restIn, input = (wrapperLoop child input buf).sentToChild ++ restIn) ∧
      (∃ restOut,
        buf ++ ((wrapperLoop child input buf).sentToChild.map child).flatten =
          (wrapperLoop child input buf).writtenOut ++ restOut) ∧
      (wrapperLoop child input buf).writtenOut.length ≤
        (wrapperLoop child input buf).sentToChild.length ∧
      (((wrapperLoop child input buf).blocked = false ∧
          (wrapperLoop child input buf).sentToChild = input) ∨
       ((wrapperLoop child input buf).blocked = true ∧
          buf ++ ((wrapperLoop child input buf).sentToChild.map child).flatten =
            (wrapperLoop child input buf).writtenOut ∧
          (wrapperLoop child input buf).writtenOut.length + 1 =
            (wrapperLoop child input buf).sentToChild.length)) := by
  intro input
  induction input with
  | nil =>
    intro buf
    exact ⟨⟨[], rfl⟩, ⟨buf, by simp [wrapperLoop]⟩, le_refl _, Or.inl ⟨rfl, rfl⟩⟩
  | cons l rest ih =>
    intro buf
    cases hb : buf ++ child l with
    | nil =>
      refine ⟨⟨rest, ?_⟩, ⟨[], ?_⟩, ?_, Or.inr ⟨?_, ?_, ?_⟩⟩ <;>
        simp [wrapperLoop, hb]
    | cons r buf2 =>
      obtain ⟨⟨restIn, h1⟩, ⟨restOut, h2⟩, h3, h4⟩ := ih buf2
      have hunfold : wrapperLoop child (l :: rest) buf =
          ⟨l :: (wrapperLoop child rest buf2).sentToChild,
            r :: (wrapperLoop child rest buf2).writtenOut,
            (wrapperLoop child rest buf2).blocked⟩ := by
        simp [wrapperLoop, hb]
      rw [hunfold]
      refine ⟨⟨restIn, by simpa using h1⟩, ⟨restOut, ?_⟩, ?_, ?_⟩
      · rw [List.map_cons, List.flatten_cons, ← List.append_assoc, hb]
        simpa using h2
      · simpa using Nat.succ_le_succ h3
      · rcases h4 with ⟨hbl, hsent⟩ | ⟨hbl, hbuf, hlen⟩
        · exact Or.inl ⟨hbl, by simp [hsent]⟩
        · refine Or.inr ⟨hbl, ?_, by simpa using congrArg Nat.succ hlen⟩
          rw [List.map_cons, List.flatten_cons, ← List.append_assoc, hb]
          simpa using hbuf

/-! ### Concrete fixtures used by scenario claims and witnesses -/

/-- A monitor configuration with circularity threshold 0.9, history
window 5, circularity check enabled. -/
def cfg0 : MonitorConfig := ⟨mkRat 9 10, 5, true⟩

/-- A concrete model-role configuration. -/
def mc0 : ModelConfig := ⟨"gpt-primary", "o3-verifier", "gpt-reasoning"⟩

/-- A similarity scorer returning 0.95 for repeated content and 0
otherwise. -/
def scorerEq : String → String → ℚ := fun a b => if a = b then mkRat 19 20 else 0

/-- A deriver whose first attempt is already well-formed. -/
def deriverOk : Deriver := fun _ =>
  some ⟨"updated understanding", [⟨"an insight", mkRat 4 5, 1⟩], ["a decision"], ["an action"]⟩

/-- A deriver all of whose attempts are ill-formed. -/
def deriverFail : Deriver := fun _ => none

def sess0 : Session := newSession "wit" mc0

def sess1 : Session := (advanceStep cfg0 scorerEq deriverOk sess0 ⟨"A", "planner", false⟩).1

def sess1state : SynthesisState :=
  (advanceStep cfg0 scorerEq deriverOk sess0 ⟨"A", "planner", false⟩).2

theorem sess1_reachable : Reachable cfg0 sess1 :=
  Reachable.planner scorerEq deriverOk sess0 ⟨"A", 1, 3, true⟩ sess1 sess1state
    (Reachable.init "wit" mc0) rfl

def sess2 : Session := (advanceStep cfg0 scorerEq deriverOk sess1 ⟨"B", "primary", false⟩).1

def sess2state : SynthesisState :=
  (advanceStep cfg0 scorerEq deriverOk sess1 ⟨"B", "primary", false⟩).2

def scen0 : Session := newSession "scenario" mc0

def scenPair1 : Session × SynthesisState :=
  advanceStep cfg0 scorerEq deriverOk scen0 ⟨"A", "primary", false⟩

def scenPair2 : Session × SynthesisState :=
  advanceStep cfg0 scorerEq deriverOk scenPair1.1 ⟨"A", "primary", false⟩

def scenPair3 : Session × SynthesisState :=
  advanceStep cfg0 scorerEq deriverOk scenPair2.1 ⟨"A", "primary", false⟩

theorem scen3_reachable : Reachable cfg0 scenPair3.1 :=
  Reachable.thought scorerEq deriverOk scenPair2.1 "A" false scenPair3.1 scenPair3.2
    (Reachable.thought scorerEq deriverOk scenPair1.1 "A" false scenPair2.1 scenPair2.2
      (Reachable.thought scorerEq deriverOk scen0 "A" false scenPair1.1 scenPair1.2
        (Reachable.init "scenario" mc0) rfl) rfl) rfl

/-- An adjudicator whose verifier reports bias on round 1 and no bias
with confidence 0.95 on every later round. -/
def adjConv : Adjudicator :=
  { propose := fun i _ => if i = 1 then "claim one" else "claim two"
    critiqueOf := fun _ _ => "a critique"
    verdict := fun i _ => if i = 1 then (true, mkRat 4 5) else (false, mkRat 19 20) }

/-! ### Bias loop bounds -/

theorem runRoundsAux_len (cfg : MonitorConfig) (scorer : String → String → ℚ)
    (deriver : Deriver) (adj : Adjudicator) (threshold : ℚ) (query : String) :
    ∀ fuel idx s,
      (runRoundsAux cfg scorer deriver adj threshold query fuel idx s).2.1.length ≤ fuel := by
  intro fuel
  induction fuel with
  | zero => intro idx s; exact Nat.le_refl 0
  | succ m ih =>
    intro idx s
    simp only [runRoundsAux]
    split
    · simp
    · simpa using Nat.succ_le_succ (ih (idx + 1) _)

theorem runRoundsAux_conv (cfg : MonitorConfig) (scorer : String → String → ℚ)
    (deriver : Deriver) (adj : Adjudicator) (threshold : ℚ) (query : String) :
    ∀ fuel idx s,
      (runRoundsAux cfg scorer deriver adj threshold query fuel idx s).2.2 =
          LoopOutcome.converged →
      ∃ r rs, (runRoundsAux cfg scorer deriver adj threshold query fuel idx s).2.1 =
          rs ++ [r] ∧ roundConverges threshold r = true ∧
          ∀ r2 ∈ rs, roundConverges threshold r2 = false := by
  intro fuel
  induction fuel with
  | zero => intro idx s h; exact absurd h (by simp [runRoundsAux])
  | succ m ih =>
    intro idx s
    simp only [runRoundsAux]
    split
    · next hc =>
      intro _
      exact ⟨_, [], rfl, hc, by simp⟩
    · next hnc =>
      intro h
      obtain ⟨r0, rs0, heq, hcv, hall⟩ := ih (idx + 1) _ h
      refine ⟨r0, _ :: rs0, by rw [List.cons_append, ← heq], hcv, ?_⟩
      intro r2 hr2
      rcases List.mem_cons.mp hr2 with heq2 | hmem
      · rw [heq2]
        exact Bool.eq_false_iff.mpr hnc
      · exact hall r2 hmem

theorem runRoundsAux_nonconv (cfg : MonitorConfig) (scorer : String → String → ℚ)
    (deriver : Deriver) (adj : Adjudicator) (threshold : ℚ) (query : String) :
    ∀ fuel idx s,
      (runRoundsAux cfg scorer deriver adj threshold query fuel idx s).2.2 =
          LoopOutcome.nonConvergent →
      (runRoundsAux cfg scorer deriver adj threshold query fuel idx s).2.1.length = fuel ∧
      ∀ r ∈ (runRoundsAux cfg scorer deriver adj threshold query fuel idx s).2.1,
        roundConverges threshold r = false := by
  intro fuel
  induction fuel with
  | zero =>
    intro idx s _
    exact ⟨rfl, by simp [runRoundsAux]⟩
  | succ m ih =>
    intro idx s
    simp only [runRoundsAux]
    split
    · intro h
      exact absurd h (by simp)
    · next hnc =>
      intro h
      obtain ⟨hlen, hall⟩ := ih (idx + 1) _ h
      refine ⟨by simp [hlen], ?_⟩
      intro r2 hr2
      rcases List.mem_cons.mp hr2 with heq2 | hmem
      · rw [heq2]
        exact Bool.eq_false_iff.mpr hnc
      · exact hall r2 hmem

theorem runRoundsAux_status (cfg : MonitorConfig) (scorer : String → String → ℚ)
    (deriver : Deriver) (adj : Adjudicator) (threshold : ℚ) (query : String) :
    ∀ fuel idx s, s.status = SessionStatus.active →
      (runRoundsAux cfg scorer deriver adj threshold query fuel idx s).1.status =
        SessionStatus.active := by
  intro fuel
  induction fuel with
  | zero => intro idx s h; exact h
  | succ m ih =>
    intro idx s h
    have hstep : ((advanceStep cfg scorer deriver s
        ⟨adj.propose idx query, "primary", false⟩).1).status = SessionStatus.active := by
      rw [advanceStep_status cfg scorer deriver s _ rfl]
      exact h
    simp only [runRoundsAux]
    split
    · exact hstep
    · exact ih (idx + 1) _ hstep

theorem close_status_completed (s : Session) (reason : String)
    (h : s.status = SessionStatus.active) :
    (close s reason).status = SessionStatus.completed := by
  simp [close, h]

/-! ## Claim theorems -/

/-- C1: for every reachable session the sequence of SynthesisState
version values, read oldest to newest, is exactly 1..N, and no two
SynthesisStates of the session share a version. -/
theorem version_sequence_exact (cfg : MonitorConfig) (s : Session) (h : Reachable cfg s) :
    (s.states.map SynthesisState.version).reverse = List.range' 1 s.states.length ∧
    (s.states.map SynthesisState.version).Nodup := by
  have hdesc := (reachable_inv cfg s h).2.2.1
  rw [hdesc]
  exact ⟨descFrom_reverse _, descFrom_nodup _⟩

/-- C1 witness: a concrete session after one accepted planner step. -/
theorem version_sequence_exact_witness :
    (sess1.states.map SynthesisState.version).reverse = List.range' 1 sess1.states.length ∧
    (sess1.states.map SynthesisState.version).Nodup :=
  version_sequence_exact cfg0 sess1 sess1_reachable

/-- C2: a step submitted to an active session always yields a
SynthesisState (an inactive session is the one classified error of
submitStep); the synthesis derivation is retried up to the fixed bound
(any successful attempt below the bound makes the derivation succeed);
and when every retry fails, advance still returns a degraded
SynthesisState with unchanged understanding, a diagnostic note, and
confidence not above the prior confidence. -/
theorem submission_never_dropped (cfg : MonitorConfig) (scorer : String → String → ℚ)
    (deriver : Deriver) (s : Session) (p : StepPayload) :
    ((s.status = SessionStatus.active ∧
        submitStep cfg scorer deriver s p =
          Except.ok (advanceStep cfg scorer deriver s p)) ∨
     (¬s.status = SessionStatus.active ∧
        submitStep cfg scorer deriver s p = Except.error EngineError.SessionClosed)) ∧
    ((∃ k, k < synthesisRetryBound ∧ (deriver k).isSome = true) →
        (firstSuccess deriver synthesisRetryBound).isSome = true) ∧
    (firstSuccess deriver synthesisRetryBound = none →
      ∀ prior n c,
        (advance prior deriver n c).degraded = true ∧
        (advance prior deriver n c).currentUnderstanding = prior.currentUnderstanding ∧
        (advance prior deriver n c).diagnosticNote.isSome = true ∧
        (0 ≤ prior.confidenceScore →
          (advance prior deriver n c).confidenceScore ≤ prior.confidenceScore)) := by
  refine ⟨?_, ?_, ?_⟩
  · by_cases hact : s.status = SessionStatus.active
    · exact Or.inl ⟨hact, by simp [submitStep, hact]⟩
    · exact Or.inr ⟨hact, by simp [submitStep, hact]⟩
  · rintro ⟨k, hk, hsome⟩
    exact firstSuccess_isSome deriver synthesisRetryBound k hk hsome
  · intro hfail prior n c
    obtain ⟨hdeg, hund, hnote, hconf⟩ := advance_on_failure prior deriver n c hfail
    refine ⟨hdeg, hund, hnote, ?_⟩
    intro hnn
    have := advance_degradedMono prior deriver n c hnn
    exact this hdeg

/-- C2 witness: a deriver all of whose attempts fail still yields an
accepted step with a degraded state, and a deriver whose first attempt
succeeds makes the derivation succeed. -/
theorem submission_never_dropped_witness :
    submitStep cfg0 scorerEq deriverFail sess0 ⟨"x", "primary", false⟩ =
      Except.ok (advanceStep cfg0 scorerEq deriverFail sess0 ⟨"x", "primary", false⟩) ∧
    (advance seedState deriverFail 1 0).degraded = true ∧
    (advance seedState deriverFail 1 0).confidenceScore ≤ seedState.confidenceScore ∧
    (firstSuccess deriverOk synthesisRetryBound).isSome = true := by
  have h1 := submission_never_dropped cfg0 scorerEq deriverFail sess0 ⟨"x", "primary", false⟩
  have h2 := submission_never_dropped cfg0 scorerEq deriverOk sess0 ⟨"x", "primary", false⟩
  refine ⟨?_, ?_, ?_, ?_⟩
  · rcases h1.1 with ⟨_, heq⟩ | ⟨hna, _⟩
    · exact heq
    · exact absurd rfl hna
  · exact (h1.2.2 (by decide) seedState 1 0).1
  · exact (h1.2.2 (by decide) seedState 1 0).2.2.2 (by decide)
  · exact h2.2.1 ⟨0, by decide, by decide⟩

/-- C3: a planner step is accepted only when its stepNumber equals the
session step counter plus 1 (and then the counter advances to exactly
that number), and submitting step number k+2 when the counter is at k
fails with StepOutOfOrder. -/
theorem step_order_enforced (cfg : MonitorConfig) (scorer : String → String → ℚ)
    (deriver : Deriver) (s : Session) (p : PlannerPayload) :
    (∀ s2 st, plannerStep cfg scorer deriver s p = Except.ok (s2, st) →
      p.stepNumber = s.stepCounter + 1 ∧ s2.stepCounter = s.stepCounter + 1) ∧
    (s.status = SessionStatus.active → p.stepNumber = s.stepCounter + 2 →
      plannerStep cfg scorer deriver s p = Except.error EngineError.StepOutOfOrder) := by
  constructor
  · intro s2 st heq
    obtain ⟨_, hord, _, hpair⟩ := plannerStep_ok_inversion cfg scorer deriver s p s2 st heq
    refine ⟨hord, ?_⟩
    have : s2 = (advanceStep cfg scorer deriver s
        ⟨p.description, "planner", !p.nextStepRequired⟩).1 := by rw [← hpair]
    rw [this]
    rfl
  · intro hact hk
    have hne : ¬p.stepNumber = s.stepCounter + 1 := by omega
    simp [plannerStep, hact, hne]

/-- C3 witness: with the counter at 0, step number 2 is rejected with
StepOutOfOrder, and the accepted step number 1 advances the counter
to 1. -/
theorem step_order_enforced_witness :
    plannerStep cfg0 scorerEq deriverOk sess0 ⟨"B", 2, 3, true⟩ =
      Except.error EngineError.StepOutOfOrder ∧
    sess1.stepCounter = sess0.stepCounter + 1 := by
  have hbad := step_order_enforced cfg0 scorerEq deriverOk sess0 ⟨"B", 2, 3, true⟩
  have hok := step_order_enforced cfg0 scorerEq deriverOk sess0 ⟨"A", 1, 3, true⟩
  exact ⟨hbad.2 rfl rfl, (hok.1 sess1 sess1state rfl).2⟩

/-- C4: in every reachable session, every stored SynthesisState has
confidence and clarity scores in the closed unit interval, and along
the version chain (newest first) a degraded state has confidence at
most the confidence of the immediately prior version. -/
theorem scores_bounded_and_degraded_monotone (cfg : MonitorConfig) (s : Session)
    (h : Reachable cfg s) :
    (∀ st ∈ s.states,
      0 ≤ st.confidenceScore ∧ st.confidenceScore ≤ 1 ∧
      0 ≤ st.clarityScore ∧ st.clarityScore ≤ 1) ∧
    List.Chain' (fun newer older => newer.degraded = true →
      newer.confidenceScore ≤ older.confidenceScore) s.states := by
  have hinv := reachable_inv cfg s h
  exact ⟨hinv.2.2.2.2.1, hinv.2.2.2.2.2.1⟩

/-- C4 witness: the scores of a concrete one-step session. -/
theorem scores_bounded_and_degraded_monotone_witness :
    (∀ st ∈ sess1.states,
      0 ≤ st.confidenceScore ∧ st.confidenceScore ≤ 1 ∧
      0 ≤ st.clarityScore ∧ st.clarityScore ≤ 1) ∧
    List.Chain' (fun newer older => newer.degraded = true →
      newer.confidenceScore ≤ older.confidenceScore) sess1.states :=
  scores_bounded_and_degraded_monotone cfg0 sess1 sess1_reachable

/-- C5: with circularity threshold 0.9 and a similarity scorer that
returns 0.95 for repeated content, submitting three identical steps
with content A to a new session raises a circular reasoning
intervention on step 3, while step 1 (no prior history) raises none. -/
theorem circular_scenario :
    submitThought cfg0 scorerEq deriverOk scen0 "A" false = Except.ok scenPair1 ∧
    submitThought cfg0 scorerEq deriverOk scenPair1.1 "A" false = Except.ok scenPair2 ∧
    submitThought cfg0 scorerEq deriverOk scenPair2.1 "A" false = Except.ok scenPair3 ∧
    hasIntervention scenPair3.1.interventions 3 InterventionType.circular_reasoning = true ∧
    scenPair1.1.interventions = [] ∧
    hasIntervention scenPair3.1.interventions 1 InterventionType.circular_reasoning = false ∧
    cfg0.circularityThreshold = mkRat 9 10 ∧
    scorerEq "A" "A" = mkRat 19 20 := by
  refine ⟨rfl, rfl, rfl, by decide, by decide, by decide, by decide, by decide⟩

/-- C6: in every reachable session at most one intervention of a given
type exists per step (all recorded intervention keys are pairwise
distinct), and re-recording an intervention with an already present
step and type leaves the recorded list unchanged. -/
theorem intervention_types_unique (cfg : MonitorConfig) (s : Session)
    (h : Reachable cfg s) :
    List.Pairwise (fun a b => ivKey a ≠ ivKey b) s.interventions ∧
    ∀ i, recordIntervention (recordIntervention s.interventions i) i =
      recordIntervention s.interventions i := by
  exact ⟨(reachable_inv cfg s h).2.2.2.2.2.2, fun i => recordIntervention_idem _ i⟩

/-- C6 witness: the session of the circularity scenario, which carries
recorded interventions on steps 2 and 3. -/
theorem intervention_types_unique_witness :
    List.Pairwise (fun a b => ivKey a ≠ ivKey b) scenPair3.1.interventions ∧
    recordIntervention
        (recordIntervention scenPair3.1.interventions
          ⟨3, InterventionType.circular_reasoning, "again"⟩)
        ⟨3, InterventionType.circular_reasoning, "again"⟩ =
      recordIntervention scenPair3.1.interventions
        ⟨3, InterventionType.circular_reasoning, "again"⟩ := by
  have h := intervention_types_unique cfg0 scenPair3.1 scen3_reachable
  exact ⟨h.1, h.2 ⟨3, InterventionType.circular_reasoning, "again"⟩⟩

/-- C7: the Bias Adjudication Loop always terminates within maxRounds
rounds; when it converges the last executed round is the first one in
which the verifier reports no bias with confidence above the
convergence threshold; when it does not converge it has executed
exactly maxRounds rounds, none convergent, and this still produces a
FinalSynthesis (the last available synthesis) with the session closed,
not an error. -/
theorem bias_loop_bounded (cfg : MonitorConfig) (scorer : String → String → ℚ)
    (deriver : Deriver) (adj : Adjudicator) (threshold : ℚ) (s : Session)
    (query : String) (maxRounds : Nat) :
    (runRounds cfg scorer deriver adj threshold s query maxRounds).rounds.length ≤ maxRounds ∧
    ((runRounds cfg scorer deriver adj threshold s query maxRounds).outcome =
        LoopOutcome.converged →
      ∃ r rs, (runRounds cfg scorer deriver adj threshold s query maxRounds).rounds =
          rs ++ [r] ∧ roundConverges threshold r = true ∧
          ∀ r2 ∈ rs, roundConverges threshold r2 = false) ∧
    ((runRounds cfg scorer deriver adj threshold s query maxRounds).outcome =
        LoopOutcome.nonConvergent →
      (runRounds cfg scorer deriver adj threshold s query maxRounds).rounds.length = maxRounds ∧
      ∀ r ∈ (runRounds cfg scorer deriver adj threshold s query maxRounds).rounds,
        roundConverges threshold r = false) ∧
    (runRounds cfg scorer deriver adj threshold s query maxRounds).finalState =
      latestState (runRounds cfg scorer deriver adj threshold s query maxRounds).finalSession ∧
    (s.status = SessionStatus.active →
      (runRounds cfg scorer deriver adj threshold s query maxRounds).finalSession.status =
        SessionStatus.completed) := by
  refine ⟨runRoundsAux_len cfg scorer deriver adj threshold query maxRounds 1 s,
    runRoundsAux_conv cfg scorer deriver adj threshold query maxRounds 1 s,
    runRoundsAux_nonconv cfg scorer deriver adj threshold query maxRounds 1 s,
    rfl, ?_⟩
  intro hact
  show (close (runRoundsAux cfg scorer deriver adj threshold query maxRounds 1 s).1
    "final_synthesis").status = SessionStatus.completed
  exact close_status_completed _ _
    (runRoundsAux_status cfg scorer deriver adj threshold query maxRounds 1 s hact)

/-- C7 witness: with maxRounds 2, bias on round 1 and no bias with
confidence 0.95 against threshold 0.9 on round 2, the loop converges
after both rounds; with maxRounds 1 and bias on round 1 it finalizes
non-convergent with exactly one round, and the session is completed. -/
theorem bias_loop_bounded_witness :
    (runRounds cfg0 scorerEq deriverOk adjConv (mkRat 9 10) (newSession "bias" mc0) "q" 2).outcome =
      LoopOutcome.converged ∧
    (runRounds cfg0 scorerEq deriverOk adjConv (mkRat 9 10) (newSession "bias" mc0) "q" 2).rounds.length ≤ 2 ∧
    (∃ r rs,
      (runRounds cfg0 scorerEq deriverOk adjConv (mkRat 9 10) (newSession "bias" mc0) "q" 2).rounds =
        rs ++ [r] ∧ roundConverges (mkRat 9 10) r = true ∧
        ∀ r2 ∈ rs, roundConverges (mkRat 9 10) r2 = false) ∧
    (runRounds cfg0 scorerEq deriverOk adjConv (mkRat 9 10) (newSession "bias2" mc0) "q" 1).outcome =
      LoopOutcome.nonConvergent ∧
    (runRounds cfg0 scorerEq deriverOk adjConv (mkRat 9 10) (newSession "bias2" mc0) "q" 1).rounds.length = 1 ∧
    (runRounds cfg0 scorerEq deriverOk adjConv (mkRat 9 10) (newSession "bias" mc0) "q" 2).finalSession.status =
      SessionStatus.completed := by
  have hA := bias_loop_bounded cfg0 scorerEq deriverOk adjConv (mkRat 9 10) (newSession "bias" mc0) "q" 2
  have hB := bias_loop_bounded cfg0 scorerEq deriverOk adjConv (mkRat 9 10) (newSession "bias2" mc0) "q" 1
  exact ⟨by decide, hA.1, hA.2.1 (by decide), by decide,
    (hB.2.2.1 (by decide)).1, hA.2.2.2.2 rfl⟩

/-- C8: committing a session to the store and then resuming it by its
external id (with its own model configuration) returns exactly that
session, with its latest SynthesisState intact; in particular, after a
successful step submission, persisting and resuming returns the
session whose latest SynthesisState is the one produced by that step. -/
theorem session_resume_round_trip (store : Store) (s : Session) (freshId : String) :
    lookupSession (persist store s) s.externalId = some s ∧
    openOrResume (persist store s) (some s.externalId) freshId s.modelConfig =
      Except.ok (persist store s, s) ∧
    (∀ cfg scorer deriver p s2 st,
      submitStep cfg scorer deriver s p = Except.ok (s2, st) →
      s2.externalId = s.externalId ∧
      latestState s2 = st ∧
      openOrResume (persist store s2) (some s2.externalId) freshId s2.modelConfig =
        Except.ok (persist store s2, s2)) := by
  refine ⟨lookup_persist store s, openOrResume_persist store s freshId, ?_⟩
  intro cfg scorer deriver p s2 st heq
  obtain ⟨_, hpair⟩ := submitStep_ok_inversion cfg scorer deriver s p s2 st heq
  have hs2 : s2 = (advanceStep cfg scorer deriver s p).1 := by rw [← hpair]
  have hst : st = (advanceStep cfg scorer deriver s p).2 := by rw [← hpair]
  refine ⟨by rw [hs2]; rfl, ?_, openOrResume_persist store s2 freshId⟩
  rw [hs2, hst]
  exact advanceStep_latest cfg scorer deriver s p

/-- C8 witness: a concrete committed session resumed from the store,
and a concrete submission whose produced state is the latest one after
resumption. -/
theorem session_resume_round_trip_witness :
    lookupSession (persist [] sess1) sess1.externalId = some sess1 ∧
    openOrResume (persist [] sess1) (some sess1.externalId) "fresh" sess1.modelConfig =
      Except.ok (persist [] sess1, sess1) ∧
    latestState sess2 = sess2state := by
  have h := session_resume_round_trip [] sess1 "fresh"
  exact ⟨h.1, h.2.1,
    (h.2.2 cfg0 scorerEq deriverOk ⟨"B", "primary", false⟩ sess2 sess2state rfl).2.1⟩

/-- C9: submitting a planner step with stepNumber 3, totalSteps 2 and
nextStepRequired true to an active session whose counter is 2 is
rejected with a configuration error, so no SynthesisState is created
for it (the call returns no new session state). -/
theorem planner_rejects_bad_total :
    scenPair2.1.stepCounter = 2 ∧
    scenPair2.1.status = SessionStatus.active ∧
    plannerStep cfg0 scorerEq deriverOk scenPair2.1 ⟨"step three", 3, 2, true⟩ =
      Except.error EngineError.ConfigurationMismatch := by
  refine ⟨by decide, by decide, by rfl⟩

/-- C10: the forwarding loop of the stdio wrapper is one-for-one
lockstep. For every child behavior and input: the lines sent to the
child are an unchanged prefix of the input, all of it when the loop
never blocks; the lines written to the wrapper stdout are exactly a
prefix of the concatenated child output lines in order (never
reordered, so surplus child lines are forwarded only after later input
lines); at most one child line is forwarded per input line; and when
the loop blocks, the child has produced exactly one line fewer than
the number of input lines consumed, so an input line that the child
never answers stalls the loop. -/
theorem wrapper_lockstep (child : String → List String) (input : List String) :
    (∃ restIn, input = (wrapperRun child input).sentToChild ++ restIn) ∧
    (∃ restOut, ((wrapperRun child input).sentToChild.map child).flatten =
      (wrapperRun child input).writtenOut ++ restOut) ∧
    (wrapperRun child input).writtenOut.length ≤ (wrapperRun child input).sentToChild.length ∧
    (((wrapperRun child input).blocked = false ∧
        (wrapperRun child input).sentToChild = input) ∨
     ((wrapperRun child input).blocked = true ∧
        ((wrapperRun child input).sentToChild.map child).flatten =
          (wrapperRun child input).writtenOut ∧
        (wrapperRun child input).writtenOut.length + 1 =
          (wrapperRun child input).sentToChild.length)) := by
  have h := wrapperLoop_spec child input []
  simpa [wrapperRun] using h

end LuxMcp
